import Mathlib

/-! The command `lxc copy`: a shallow embedding of `copyCmd.copyContainer`
(src/lxc/copy.go).

The Go function talks to two LXD hosts through `*lxd.Client` methods.  The
embedding threads an abstract world `σ` through every client method and keeps a
log of the calls that were made, each with the reply it received, so that
statements such as "no `MigrateFrom` request was issued" are statements about
the log.

Conventions
* a Go `error` result is `Option Err` (`none` is `nil`); a `(value, error)`
  result is `Except Err value`;
* a Go `map[string]string` is an association list with distinct keys
  (`AList`); a `range` loop follows the order of the entries, and what the
  loops of `copyContainer` compute is stated through `lookup`, which does not
  depend on that order;
* replies decoded from a host are well typed: a `Config` map is a map (not the
  nil map) and the metadata of a migration operation is a map of strings, so
  the Go runtime panics of a nil-map write, a nil dereference or a failed type
  assertion are outside the embedding;
* `shared.LogWarnf` and `fmt.Printf` only write diagnostics and are left out.
-/

namespace Lxc

/-- Go `error` values are identified with their message. -/
abbrev Err := String

/-- A Go `map[string]string`. -/
abbrev StrMap := AList (fun _ : String => String)

/-- The type `shared.Devices`, a `map[string]shared.Device`; only passed along. -/
abbrev Devices := AList (fun _ : String => StrMap)

/-- The expression `m[k]` on a `map[string]string`: the zero value when absent. -/
def StrMap.index (m : StrMap) (k : String) : String :=
  (m.lookup k).getD ""

/-- The function `strings.HasPrefix(s, pre)`. -/
def stringsHasPrefix (s pre : String) : Bool :=
  pre.data.isPrefixOf s.data

/-- The fields of `shared.Operation` that `copyContainer` reads.  `metadata` is
`*op.Metadata`, whose values `copyContainer` asserts to be strings. -/
structure Operation where
  resources : AList (fun _ : String => List String)
  metadata : StrMap

/-- The fields of `lxd.Response` that `copyContainer` reads: the `Operation`
path, and what `MetadataAsOperation()` returns. -/
structure Response where
  operation : String
  metadataAsOperation : Except Err Operation

/-- The fields of `shared.ContainerInfo` that `copyContainer` reads. -/
structure ContainerInfo where
  architecture : String
  devices : Devices
  config : StrMap
  profiles : List String
  ephemeral : Bool

/-- The fields of `shared.SnapshotInfo` that `copyContainer` reads. -/
structure SnapshotInfo where
  architecture : String
  devices : Devices
  config : StrMap
  profiles : List String

/-- The fields of `lxd.Client` that `copyContainer` reads. -/
structure Client where
  name : String
  certificate : String

/-- The local `status` struct of `copyContainer` (lines 73-78). -/
structure Status where
  architecture : String
  devices : Devices
  config : StrMap
  profiles : List String

/-- The arguments of `Client.MigrateFrom`, in the order of line 253. -/
structure MigrateArgs where
  name : String
  operation : String
  certificate : String
  secrets : StrMap
  architecture : String
  config : StrMap
  devices : Devices
  profiles : List String
  baseImage : String
  ephemeral : Bool
  push : Bool

/-- One client method call together with the reply it received. -/
inductive Event where
  | containerInfo (c : Client) (name : String) (r : Except Err ContainerInfo)
  | snapshotInfo (c : Client) (name : String) (r : Except Err SnapshotInfo)
  | localCopy (c : Client) (src dst : String) (config : StrMap) (profiles : List String)
      (ephemeral : Bool) (r : Except Err Response)
  | waitForSuccess (c : Client) (op : String) (r : Option Err)
  | listProfiles (c : Client) (r : Except Err (List String))
  | getMigrationSourceWS (c : Client) (name : String) (push : Bool) (r : Except Err Response)
  | addresses (c : Client) (r : Except Err (List String))
  | migrateFrom (c : Client) (args : MigrateArgs) (r : Except Err Response)

/-- The collaborators of `copyContainer`.  `parseRemoteAndContainer` and
`newClient` are the `*lxd.Config` argument seen through
`config.ParseRemoteAndContainer` and `lxd.NewClient(config, ·)`; `isSnapshot`
is `shared.IsSnapshot`; the other fields are the `*lxd.Client` methods, each a
transition of the world `σ`. -/
structure Env (σ : Type) where
  parseRemoteAndContainer : String → String × String
  newClient : String → Except Err Client
  isSnapshot : String → Bool
  containerInfo : Client → String → σ → Except Err ContainerInfo × σ
  snapshotInfo : Client → String → σ → Except Err SnapshotInfo × σ
  localCopy : Client → String → String → StrMap → List String → Bool → σ →
    Except Err Response × σ
  waitForSuccess : Client → String → σ → Option Err × σ
  listProfiles : Client → σ → Except Err (List String) × σ
  getMigrationSourceWS : Client → String → Bool → σ → Except Err Response × σ
  addresses : Client → σ → Except Err (List String) × σ
  migrateFrom : Client → MigrateArgs → σ → Except Err Response × σ

/-- The package-level variables read by `copyContainer`: `usePush` (line 23) and
`configMap`, which is declared in another file of package `main`. -/
structure Globals where
  usePush : Bool
  configMap : Option StrMap

/-- The receiver `c *copyCmd`; `profArgs` is a `[]string` that may be nil. -/
structure CopyCmd where
  profArgs : Option (List String)
  ephem : Bool

/-- The world together with the log of calls made so far, oldest first. -/
structure St (σ : Type) where
  world : σ
  calls : List Event

/-- The message of line 61. -/
def errNoSourceName : Err := "you must specify a source container name"

/-- The message of line 132. -/
def errSameName : Err := "can't copy to the same container name"

/-- The message of lines 148, 153, 265 and 270. -/
def errNoAffected : Err :=
  "didn't get any affected image, container or snapshot from server"

/-- The message of line 175. -/
def errProfiles : Err := "not all the profiles from the source exist on the target"

/-! ## Logged client calls -/

def callContainerInfo {σ : Type} (env : Env σ) (c : Client) (name : String) (s : St σ) :
    Except Err ContainerInfo × St σ :=
  ((env.containerInfo c name s.world).1,
    ⟨(env.containerInfo c name s.world).2,
      s.calls ++ [Event.containerInfo c name (env.containerInfo c name s.world).1]⟩)

def callSnapshotInfo {σ : Type} (env : Env σ) (c : Client) (name : String) (s : St σ) :
    Except Err SnapshotInfo × St σ :=
  ((env.snapshotInfo c name s.world).1,
    ⟨(env.snapshotInfo c name s.world).2,
      s.calls ++ [Event.snapshotInfo c name (env.snapshotInfo c name s.world).1]⟩)

def callLocalCopy {σ : Type} (env : Env σ) (c : Client) (src dst : String) (config : StrMap)
    (profiles : List String) (ephemeral : Bool) (s : St σ) : Except Err Response × St σ :=
  ((env.localCopy c src dst config profiles ephemeral s.world).1,
    ⟨(env.localCopy c src dst config profiles ephemeral s.world).2,
      s.calls ++ [Event.localCopy c src dst config profiles ephemeral
        (env.localCopy c src dst config profiles ephemeral s.world).1]⟩)

def callWaitForSuccess {σ : Type} (env : Env σ) (c : Client) (op : String) (s : St σ) :
    Option Err × St σ :=
  ((env.waitForSuccess c op s.world).1,
    ⟨(env.waitForSuccess c op s.world).2,
      s.calls ++ [Event.waitForSuccess c op (env.waitForSuccess c op s.world).1]⟩)

def callListProfiles {σ : Type} (env : Env σ) (c : Client) (s : St σ) :
    Except Err (List String) × St σ :=
  ((env.listProfiles c s.world).1,
    ⟨(env.listProfiles c s.world).2,
      s.calls ++ [Event.listProfiles c (env.listProfiles c s.world).1]⟩)

def callGetMigrationSourceWS {σ : Type} (env : Env σ) (c : Client) (name : String)
    (push : Bool) (s : St σ) : Except Err Response × St σ :=
  ((env.getMigrationSourceWS c name push s.world).1,
    ⟨(env.getMigrationSourceWS c name push s.world).2,
      s.calls ++ [Event.getMigrationSourceWS c name push
        (env.getMigrationSourceWS c name push s.world).1]⟩)

def callAddresses {σ : Type} (env : Env σ) (c : Client) (s : St σ) :
    Except Err (List String) × St σ :=
  ((env.addresses c s.world).1,
    ⟨(env.addresses c s.world).2,
      s.calls ++ [Event.addresses c (env.addresses c s.world).1]⟩)

def callMigrateFrom {σ : Type} (env : Env σ) (c : Client) (args : MigrateArgs) (s : St σ) :
    Except Err Response × St σ :=
  ((env.migrateFrom c args s.world).1,
    ⟨(env.migrateFrom c args s.world).2,
      s.calls ++ [Event.migrateFrom c args (env.migrateFrom c args s.world).1]⟩)

/-! ## The pieces of `copyContainer` -/

/-- Lines 86-107: fetch the metadata of the source container or snapshot. -/
def fetchStatus {σ : Type} (env : Env σ) (source : Client) (sourceName : String) (s : St σ) :
    Except Err Status × St σ :=
  if env.isSnapshot sourceName then
    match callSnapshotInfo env source sourceName s with
    | (Except.error e, s1) => (Except.error e, s1)
    | (Except.ok result, s1) =>
      (Except.ok ⟨result.architecture, result.devices, result.config, result.profiles⟩, s1)
  else
    match callContainerInfo env source sourceName s with
    | (Except.error e, s1) => (Except.error e, s1)
    | (Except.ok result, s1) =>
      (Except.ok ⟨result.architecture, result.devices, result.config, result.profiles⟩, s1)

/-- Lines 109-111: `status.Profiles = append(status.Profiles, c.profArgs...)`. -/
def appendProfiles (profiles : List String) (profArgs : Option (List String)) : List String :=
  match profArgs with
  | none => profiles
  | some ps => profiles ++ ps

/-- Lines 113-117: `for key, value := range configMap { status.Config[key] = value }`. -/
def applyOverrides (config : StrMap) (configMap : Option StrMap) : StrMap :=
  match configMap with
  | none => config
  | some m => m.entries.foldl (fun acc kv => acc.insert kv.1 kv.2) config

/-- Lines 121-127: delete every key that has the prefix `volatile`, unless
`keepVolatile`. -/
def stripVolatile (config : StrMap) (keepVolatile : Bool) : StrMap :=
  if keepVolatile then config
  else config.keys.foldl
    (fun acc k => if stringsHasPrefix k "volatile" then acc.erase k else acc) config

/-- What lines 109-127 leave behind: `status` and `baseImage`. -/
structure Reconciled where
  status : Status
  baseImage : String

/-- Lines 109-127. -/
def reconcile (c : CopyCmd) (g : Globals) (keepVolatile : Bool) (status : Status) : Reconciled :=
  { status :=
      { architecture := status.architecture
        devices := status.devices
        config := stripVolatile (applyOverrides status.config g.configMap) keepVolatile
        profiles := appendProfiles status.profiles c.profArgs }
    baseImage := StrMap.index (applyOverrides status.config g.configMap) "volatile.base_image" }

/-- Lines 146-157 and 263-274: look up the name the host gave to the new
container; only the error is kept, the name itself is printed. -/
def reportName (r : Response) : Option Err :=
  match r.metadataAsOperation with
  | Except.error _ => some errNoAffected
  | Except.ok op =>
    match op.resources.lookup "containers" with
    | none => some errNoAffected
    | some [] => some errNoAffected
    | some (_ :: _) => none

/-- Lines 44 and 64-66: the destination name, which is the source name when
the destination resource names a remote only. -/
def destNameOf {σ : Type} (env : Env σ) (sourceResource destResource : String) : String :=
  if (env.parseRemoteAndContainer destResource).2 = "" ∧ destResource ≠ "" then
    (env.parseRemoteAndContainer sourceResource).2
  else (env.parseRemoteAndContainer destResource).2

/-- Lines 131-160: the copy inside one remote. -/
def localCopyPath {σ : Type} (env : Env σ) (source : Client) (sourceName destName : String)
    (destResource : String) (status : Status) (ephemeral : Int) (s : St σ) :
    Option Err × St σ :=
  if sourceName = destName then (some errSameName, s)
  else
    match callLocalCopy env source sourceName destName status.config status.profiles
        (ephemeral == 1) s with
    | (Except.error e, s1) => (some e, s1)
    | (Except.ok cp, s1) =>
      match callWaitForSuccess env source cp.operation s1 with
      | (some e, s2) => (some e, s2)
      | (none, s2) => if destResource = "" then (reportName cp, s2) else (none, s2)

/-- Modelled from the spec: `shared.NewStringSet`, of package `shared`, which is
not among the sources.  The spec (4.3) makes the profile check a set-subset
test, order-independent and blind to duplicates, so a string set is the finite
set of the elements of the list. -/
def NewStringSet (l : List String) : Finset String := l.toFinset

/-- Modelled from the spec: `StringSet.IsSubset`, of package `shared`, which is
not among the sources: every name of the receiver is in the other set. -/
def StringSet.IsSubset (ss oss : Finset String) : Bool := decide (ss ⊆ oss)

/-- Lines 178-189: an unspecified `ephemeral` (-1) is replaced by the attribute
of the source container, asked for again. -/
def resolveEphemeral {σ : Type} (env : Env σ) (source : Client) (sourceName : String)
    (ephemeral : Int) (s : St σ) : Except Err Int × St σ :=
  if ephemeral = -1 then
    match callContainerInfo env source sourceName s with
    | (Except.error e, s1) => (Except.error e, s1)
    | (Except.ok ct, s1) => if ct.ephemeral then (Except.ok 1, s1) else (Except.ok 0, s1)
  else (Except.ok ephemeral, s)

/-- Lines 197-206 and 222-231: copy the string values of `*op.Metadata` into a
fresh map. -/
def secretsOf (op : Operation) : StrMap :=
  op.metadata.entries.foldl (fun acc kv => acc.insert kv.1 kv.2) ∅

/-- The variables that are live when the loop of line 249 is entered. -/
structure LoopCtx where
  source : Client
  dest : Client
  destName : String
  destResource : String
  status : Status
  baseImage : String
  ephemeral : Int
  sourceWSResponse : Response
  sourceSecrets : StrMap
  sourceAddresses : List String
  usePush : Bool

/-- How the part of `copyContainer` before line 249 ends: with a `return`, or at
the loop. -/
inductive Setup where
  | returned (err : Option Err)
  | atLoop (ctx : LoopCtx)

/-- Lines 163-239: the requests that precede the address loop. -/
def migrationSetup {σ : Type} (env : Env σ) (g : Globals) (source : Client)
    (sourceName destRemote destName destResource : String) (r : Reconciled) (ephemeral : Int)
    (s : St σ) : Setup × St σ :=
  match env.newClient destRemote with
  | Except.error e => (Setup.returned (some e), s)
  | Except.ok dest =>
    match callListProfiles env dest s with
    | (Except.error e, s1) => (Setup.returned (some e), s1)
    | (Except.ok destProfs, s1) =>
      if !StringSet.IsSubset (NewStringSet r.status.profiles) (NewStringSet destProfs) then
        (Setup.returned (some errProfiles), s1)
      else
        match resolveEphemeral env source sourceName ephemeral s1 with
        | (Except.error e, s2) => (Setup.returned (some e), s2)
        | (Except.ok eph, s2) =>
          match callGetMigrationSourceWS env source sourceName g.usePush s2 with
          | (Except.error e, s3) => (Setup.returned (some e), s3)
          | (Except.ok sourceWSResponse, s3) =>
            match sourceWSResponse.metadataAsOperation with
            | Except.error e => (Setup.returned (some e), s3)
            | Except.ok op =>
              match callAddresses env source s3 with
              | (Except.error e, s4) => (Setup.returned (some e), s4)
              | (Except.ok sourceAddresses, s4) =>
                match callGetMigrationSourceWS env dest destName g.usePush s4 with
                | (Except.error e, s5) => (Setup.returned (some e), s5)
                | (Except.ok destWSResponse, s5) =>
                  match destWSResponse.metadataAsOperation with
                  | Except.error e => (Setup.returned (some e), s5)
                  | Except.ok _ =>
                    match callAddresses env dest s5 with
                    | (Except.error e, s6) => (Setup.returned (some e), s6)
                    | (Except.ok _, s6) =>
                      (Setup.atLoop
                        { source := source
                          dest := dest
                          destName := destName
                          destResource := destResource
                          status := r.status
                          baseImage := r.baseImage
                          ephemeral := eph
                          sourceWSResponse := sourceWSResponse
                          sourceSecrets := secretsOf op
                          sourceAddresses := sourceAddresses
                          usePush := g.usePush }, s6)

/-- Lines 252-253: the request sent to the destination for one source address. -/
def migrateArgs (ctx : LoopCtx) (addr : String) : MigrateArgs :=
  { name := ctx.destName
    operation := "https://" ++ addr ++ ctx.sourceWSResponse.operation
    certificate := ctx.source.certificate
    secrets := ctx.sourceSecrets
    architecture := ctx.status.architecture
    config := ctx.status.config
    devices := ctx.status.devices
    profiles := ctx.status.profiles
    baseImage := ctx.baseImage
    ephemeral := ctx.ephemeral == 1
    push := ctx.usePush }

/-- Lines 249-280: the loop over the source addresses and the final
`return err`.  `err` is the function-level variable `err` as it stands when the
iteration starts. -/
def addressLoop {σ : Type} (env : Env σ) (ctx : LoopCtx) :
    List String → Option Err → St σ → Option Err × St σ
  | [], err, s => (err, s)
  | addr :: rest, _, s =>
    match callMigrateFrom env ctx.dest (migrateArgs ctx addr) s with
    | (Except.error e, s1) => addressLoop env ctx rest (some e) s1
    | (Except.ok migration, s1) =>
      match callWaitForSuccess env ctx.dest migration.operation s1 with
      | (some e, s2) => (some e, s2)
      | (none, s2) =>
        if ctx.destResource = "" then (reportName migration, s2) else (none, s2)

/-- Lines 43-239: everything before the address loop, the copy inside one
remote included. -/
def copySetup {σ : Type} (env : Env σ) (g : Globals) (c : CopyCmd)
    (sourceResource destResource : String) (keepVolatile : Bool) (ephemeral : Int) (w : σ) :
    Setup × St σ :=
  if (env.parseRemoteAndContainer sourceResource).2 = "" then
    (Setup.returned (some errNoSourceName), ⟨w, []⟩)
  else
    match env.newClient (env.parseRemoteAndContainer sourceResource).1 with
    | Except.error e => (Setup.returned (some e), ⟨w, []⟩)
    | Except.ok source =>
      match fetchStatus env source (env.parseRemoteAndContainer sourceResource).2 ⟨w, []⟩ with
      | (Except.error e, s1) => (Setup.returned (some e), s1)
      | (Except.ok status, s1) =>
        if (env.parseRemoteAndContainer sourceResource).1
            = (env.parseRemoteAndContainer destResource).1 then
          (Setup.returned
            (localCopyPath env source (env.parseRemoteAndContainer sourceResource).2
              (destNameOf env sourceResource destResource) destResource
              (reconcile c g keepVolatile status).status ephemeral s1).1,
           (localCopyPath env source (env.parseRemoteAndContainer sourceResource).2
              (destNameOf env sourceResource destResource) destResource
              (reconcile c g keepVolatile status).status ephemeral s1).2)
        else
          migrationSetup env g source (env.parseRemoteAndContainer sourceResource).2
            (env.parseRemoteAndContainer destResource).1
            (destNameOf env sourceResource destResource) destResource
            (reconcile c g keepVolatile status) ephemeral s1

/-- The method `copyCmd.copyContainer` (lines 42-281), started in world `w` with an
empty log.  The loop is entered with `err` nil: the last assignment to it is
that of line 234, and line 235 has returned unless it was nil. -/
def copyContainer {σ : Type} (env : Env σ) (g : Globals) (c : CopyCmd)
    (sourceResource destResource : String) (keepVolatile : Bool) (ephemeral : Int) (w : σ) :
    Option Err × St σ :=
  match copySetup env g c sourceResource destResource keepVolatile ephemeral w with
  | (Setup.returned err, s) => (err, s)
  | (Setup.atLoop ctx, s) => addressLoop env ctx ctx.sourceAddresses none s

/-- The value of `errArgs`, declared in another file of package `main`, is a
parameter of `run`. -/
def run {σ : Type} (env : Env σ) (g : Globals) (c : CopyCmd) (errArgs : Err)
    (args : List String) (w : σ) : Option Err × St σ :=
  match args with
  | [] => (some errArgs, ⟨w, []⟩)
  | [a0] => copyContainer env g c a0 "" false (if c.ephem then 1 else 0) w
  | a0 :: a1 :: _ => copyContainer env g c a0 a1 false (if c.ephem then 1 else 0) w

/-! ## Reading the log -/

/-- A `ContainerInfo` or `SnapshotInfo` call. -/
def Event.isMetadataFetch : Event → Bool
  | Event.containerInfo _ _ _ => true
  | Event.snapshotInfo _ _ _ => true
  | _ => false

/-- A `LocalCopy` call. -/
def Event.isLocalCopy : Event → Bool
  | Event.localCopy _ _ _ _ _ _ _ => true
  | _ => false

/-- A `GetMigrationSourceWS` call, the handshake request. -/
def Event.isHandshake : Event → Bool
  | Event.getMigrationSourceWS _ _ _ _ => true
  | _ => false

/-- A `MigrateFrom` call. -/
def Event.isMigrateFrom : Event → Bool
  | Event.migrateFrom _ _ _ => true
  | _ => false

/-- A `MigrateFrom` call that the destination accepted. -/
def Event.isAccepted : Event → Bool
  | Event.migrateFrom _ _ (Except.ok _) => true
  | _ => false

/-- The config carried by a `LocalCopy` or `MigrateFrom` request. -/
def Event.carriedConfig : Event → Option StrMap
  | Event.localCopy _ _ _ config _ _ _ => some config
  | Event.migrateFrom _ args _ => some args.config
  | _ => none

/-- The ephemeral flag carried by a `LocalCopy` request. -/
def Event.localCopyEphemeral : Event → Option Bool
  | Event.localCopy _ _ _ _ _ ephemeral _ => some ephemeral
  | _ => none

/-- The ephemeral flag carried by a `MigrateFrom` request. -/
def Event.migrateEphemeral : Event → Option Bool
  | Event.migrateFrom _ args _ => some args.ephemeral
  | _ => none

/-- The base image carried by a `MigrateFrom` request. -/
def Event.migrateBaseImage : Event → Option String
  | Event.migrateFrom _ args _ => some args.baseImage
  | _ => none

/-- The log entry of a `MigrateFrom` request for address `addr` that failed to
establish with error `e`. -/
def failedAttempt (ctx : LoopCtx) (addr : String) (e : Err) : Event :=
  Event.migrateFrom ctx.dest (migrateArgs ctx addr) (Except.error e)

/-- What the requests of one run have to carry: the reconciled config and
profiles, and for a migration the captured base image too. -/
def Event.Carries (r : Reconciled) : Event → Prop
  | Event.localCopy _ _ _ config profiles _ _ =>
    config = r.status.config ∧ profiles = r.status.profiles
  | Event.migrateFrom _ args _ =>
    args.config = r.status.config ∧ args.profiles = r.status.profiles
      ∧ args.baseImage = r.baseImage
  | _ => True

/-! ## A small world for worked examples

Two remotes, `a` and `b`.  The world is the number of calls made so far.  The
source container is ephemeral and has a volatile key; the destination accepts a
migration request only for the address `10.0.0.3:8443`. -/

/-- The config of the example container. -/
def exampleConfig : StrMap :=
  AList.insert "volatile.base_image" "abc" (AList.insert "limits.cpu" "2" ∅)

/-- The example container: ephemeral, with one profile. -/
def exampleInfo : ContainerInfo :=
  { architecture := "x86_64"
    devices := ∅
    config := exampleConfig
    profiles := ["default"]
    ephemeral := true }

/-- The operation every example request answers with. -/
def exampleOperation : Operation :=
  { resources := AList.insert "containers" ["/1.0/containers/c2"] ∅
    metadata := AList.insert "control" "secret" ∅ }

/-- The example hosts: the source advertises `sourceAddrs`, the destination has
the profiles `destProfiles`. -/
def exampleEnv (sourceAddrs : List String) (destProfiles : List String) : Env Nat where
  parseRemoteAndContainer := fun r =>
    if r = "a:c1" then ("a", "c1")
    else if r = "a:c2" then ("a", "c2")
    else if r = "a:" then ("a", "")
    else if r = "b:c2" then ("b", "c2")
    else ("local", r)
  newClient := fun r => Except.ok ⟨r, "cert-" ++ r⟩
  isSnapshot := fun _ => false
  containerInfo := fun _ _ n => (Except.ok exampleInfo, n + 1)
  snapshotInfo := fun _ _ n => (Except.error "not a snapshot", n + 1)
  localCopy := fun _ _ _ _ _ _ n =>
    (Except.ok ⟨"/1.0/operations/copy", Except.ok exampleOperation⟩, n + 1)
  waitForSuccess := fun _ _ n => (none, n + 1)
  listProfiles := fun _ n => (Except.ok destProfiles, n + 1)
  getMigrationSourceWS := fun _ _ _ n =>
    (Except.ok ⟨"/1.0/operations/ws", Except.ok exampleOperation⟩, n + 1)
  addresses := fun c n => (Except.ok (if c.name = "a" then sourceAddrs else []), n + 1)
  migrateFrom := fun _ args n =>
    if args.operation = "https://10.0.0.3:8443/1.0/operations/ws" then
      (Except.ok ⟨"/1.0/operations/migrate", Except.ok exampleOperation⟩, n + 1)
    else (Except.error ("unreachable: " ++ args.operation), n + 1)

/-- No `--push`, no `--config`. -/
def exampleGlobals : Globals := ⟨false, none⟩

/-- No `--profile`. -/
def exampleCmd : CopyCmd := ⟨none, false⟩

/-- The loop variables of `lxc copy a:c1 b:c2` in the example world. -/
def exampleCtx (sourceAddrs : List String) (ephemeral : Int) : LoopCtx :=
  { source := ⟨"a", "cert-a"⟩
    dest := ⟨"b", "cert-b"⟩
    destName := "c2"
    destResource := "b:c2"
    status :=
      { architecture := "x86_64"
        devices := ∅
        config := stripVolatile exampleConfig false
        profiles := ["default"] }
    baseImage := "abc"
    ephemeral := ephemeral
    sourceWSResponse := ⟨"/1.0/operations/ws", Except.ok exampleOperation⟩
    sourceSecrets := secretsOf exampleOperation
    sourceAddresses := sourceAddrs
    usePush := false }

/-- Three addresses, of which the destination accepts the third. -/
def threeAddrs : List String := ["10.0.0.1:8443", "10.0.0.2:8443", "10.0.0.3:8443"]

/-- Two addresses, both refused. -/
def twoAddrs : List String := ["10.0.0.1:8443", "10.0.0.2:8443"]

/-! ## Maps -/

theorem foldl_insert_lookup (l : List (Sigma (fun _ : String => String))) (hl : l.NodupKeys)
    (acc : StrMap) (k : String) :
    (l.foldl (fun acc kv => acc.insert kv.1 kv.2) acc).lookup k
      = match l.dlookup k with
        | some v => some v
        | none => acc.lookup k := by
  induction l generalizing acc with
  | nil => simp
  | cons hd t ih =>
    obtain ⟨a, b⟩ := hd
    rw [List.nodupKeys_cons] at hl
    rw [List.foldl_cons, ih hl.2]
    by_cases h : k = a
    · subst h
      have : List.dlookup k t = none := List.dlookup_eq_none.mpr hl.1
      simp [this]
    · have h3 : List.dlookup k ((⟨a, b⟩ : Sigma (fun _ : String => String)) :: t)
          = List.dlookup k t := List.dlookup_cons_ne t _ h
      rw [h3, AList.lookup_insert_ne h]

theorem applyOverrides_lookup (config : StrMap) (o : StrMap) (k : String) :
    (applyOverrides config (some o)).lookup k
      = match o.lookup k with
        | some v => some v
        | none => config.lookup k := by
  unfold applyOverrides
  exact foldl_insert_lookup o.entries o.nodupKeys config k

theorem foldl_erase_lookup (p : String → Bool) (ks : List String) (acc : StrMap) (k : String) :
    (ks.foldl (fun acc k => if p k then acc.erase k else acc) acc).lookup k
      = if p k = true ∧ k ∈ ks then none else acc.lookup k := by
  induction ks generalizing acc with
  | nil => simp
  | cons a t ih =>
    rw [List.foldl_cons, ih]
    by_cases hk : k = a
    · subst hk
      by_cases hp : p k = true
      · simp [hp]
      · simp [hp]
    · by_cases hp : p a = true
      · simp [hp, hk, AList.lookup_erase_ne hk]
      · simp [hp, hk]

theorem stripVolatile_lookup (config : StrMap) (k : String) :
    (stripVolatile config false).lookup k
      = if stringsHasPrefix k "volatile" = true then none else config.lookup k := by
  unfold stripVolatile
  simp only [Bool.false_eq_true, if_false]
  rw [foldl_erase_lookup (fun k => stringsHasPrefix k "volatile")]
  by_cases hp : stringsHasPrefix k "volatile" = true
  · by_cases hk : k ∈ config.keys
    · simp [hp, hk]
    · have hn : config.lookup k = none :=
        AList.lookup_eq_none.mpr (fun h => hk (AList.mem_keys.mp h))
      simp [hp, hn]
  · simp [hp]

/-! ## What each piece adds to the log -/

theorem callContainerInfo_eq {σ : Type} {env : Env σ} {c : Client} {name : String} {s s1 : St σ}
    {r : Except Err ContainerInfo} (h : callContainerInfo env c name s = (r, s1)) :
    s1.calls = s.calls ++ [Event.containerInfo c name r] := by
  simp only [callContainerInfo, Prod.mk.injEq] at h
  obtain ⟨h1, h2⟩ := h
  subst h1 h2
  rfl

theorem callSnapshotInfo_eq {σ : Type} {env : Env σ} {c : Client} {name : String} {s s1 : St σ}
    {r : Except Err SnapshotInfo} (h : callSnapshotInfo env c name s = (r, s1)) :
    s1.calls = s.calls ++ [Event.snapshotInfo c name r] := by
  simp only [callSnapshotInfo, Prod.mk.injEq] at h
  obtain ⟨h1, h2⟩ := h
  subst h1 h2
  rfl

theorem callLocalCopy_eq {σ : Type} {env : Env σ} {c : Client} {src dst : String}
    {config : StrMap} {profiles : List String} {eph : Bool} {s s1 : St σ}
    {r : Except Err Response}
    (h : callLocalCopy env c src dst config profiles eph s = (r, s1)) :
    s1.calls = s.calls ++ [Event.localCopy c src dst config profiles eph r] := by
  simp only [callLocalCopy, Prod.mk.injEq] at h
  obtain ⟨h1, h2⟩ := h
  subst h1 h2
  rfl

theorem callWaitForSuccess_eq {σ : Type} {env : Env σ} {c : Client} {op : String} {s s1 : St σ}
    {r : Option Err} (h : callWaitForSuccess env c op s = (r, s1)) :
    s1.calls = s.calls ++ [Event.waitForSuccess c op r] := by
  simp only [callWaitForSuccess, Prod.mk.injEq] at h
  obtain ⟨h1, h2⟩ := h
  subst h1 h2
  rfl

theorem callListProfiles_eq {σ : Type} {env : Env σ} {c : Client} {s s1 : St σ}
    {r : Except Err (List String)} (h : callListProfiles env c s = (r, s1)) :
    s1.calls = s.calls ++ [Event.listProfiles c r] := by
  simp only [callListProfiles, Prod.mk.injEq] at h
  obtain ⟨h1, h2⟩ := h
  subst h1 h2
  rfl

theorem callGetMigrationSourceWS_eq {σ : Type} {env : Env σ} {c : Client} {name : String}
    {push : Bool} {s s1 : St σ} {r : Except Err Response}
    (h : callGetMigrationSourceWS env c name push s = (r, s1)) :
    s1.calls = s.calls ++ [Event.getMigrationSourceWS c name push r] := by
  simp only [callGetMigrationSourceWS, Prod.mk.injEq] at h
  obtain ⟨h1, h2⟩ := h
  subst h1 h2
  rfl

theorem callAddresses_eq {σ : Type} {env : Env σ} {c : Client} {s s1 : St σ}
    {r : Except Err (List String)} (h : callAddresses env c s = (r, s1)) :
    s1.calls = s.calls ++ [Event.addresses c r] := by
  simp only [callAddresses, Prod.mk.injEq] at h
  obtain ⟨h1, h2⟩ := h
  subst h1 h2
  rfl

theorem callMigrateFrom_eq {σ : Type} {env : Env σ} {c : Client} {args : MigrateArgs}
    {s s1 : St σ} {r : Except Err Response} (h : callMigrateFrom env c args s = (r, s1)) :
    s1.calls = s.calls ++ [Event.migrateFrom c args r] := by
  simp only [callMigrateFrom, Prod.mk.injEq] at h
  obtain ⟨h1, h2⟩ := h
  subst h1 h2
  rfl

/-- The metadata fetch adds one `ContainerInfo` or `SnapshotInfo` call. -/
theorem fetchStatus_calls {σ : Type} (env : Env σ) (source : Client) (name : String)
    (s : St σ) :
    ∃ ev, ev.isMetadataFetch = true ∧ (fetchStatus env source name s).2.calls = s.calls ++ [ev] := by
  unfold fetchStatus
  split
  · split
    · next e s1 h => exact ⟨Event.snapshotInfo source name _, rfl, callSnapshotInfo_eq h⟩
    · next result s1 h => exact ⟨Event.snapshotInfo source name _, rfl, callSnapshotInfo_eq h⟩
  · split
    · next e s1 h => exact ⟨Event.containerInfo source name _, rfl, callContainerInfo_eq h⟩
    · next result s1 h => exact ⟨Event.containerInfo source name _, rfl, callContainerInfo_eq h⟩

/-- The copy inside one remote adds at most a `LocalCopy` request, which carries
the config and profiles it was given and `ephemeral == 1`, and a wait. -/
theorem localCopyPath_calls {σ : Type} (env : Env σ) (source : Client)
    (sourceName destName destResource : String) (status : Status) (ephemeral : Int) (s : St σ) :
    ∃ new, (localCopyPath env source sourceName destName destResource status ephemeral s).2.calls
        = s.calls ++ new ∧
      ∀ e ∈ new,
        (∃ r, e = Event.localCopy source sourceName destName status.config status.profiles
          (ephemeral == 1) r) ∨ (∃ op r, e = Event.waitForSuccess source op r) := by
  unfold localCopyPath
  split
  · exact ⟨[], by simp, by simp⟩
  · split
    · next e s1 h =>
      refine ⟨[Event.localCopy source sourceName destName status.config status.profiles
        (ephemeral == 1) (Except.error e)], callLocalCopy_eq h, ?_⟩
      intro e he
      simp only [List.mem_singleton] at he
      exact Or.inl ⟨_, he⟩
    · next cp s1 h =>
      have h1 := callLocalCopy_eq h
      split
      · next e s2 h2 =>
        refine ⟨[Event.localCopy source sourceName destName status.config status.profiles
          (ephemeral == 1) (Except.ok cp), Event.waitForSuccess source cp.operation (some e)],
          by rw [callWaitForSuccess_eq h2, h1]; simp, ?_⟩
        intro e he
        simp only [List.mem_cons, List.mem_singleton, List.not_mem_nil, or_false] at he
        rcases he with he | he
        · exact Or.inl ⟨_, he⟩
        · exact Or.inr ⟨_, _, he⟩
      · next s2 h2 =>
        refine ⟨[Event.localCopy source sourceName destName status.config status.profiles
          (ephemeral == 1) (Except.ok cp), Event.waitForSuccess source cp.operation none], ?_, ?_⟩
        · split <;> (rw [callWaitForSuccess_eq h2, h1]; simp)
        · intro e he
          simp only [List.mem_cons, List.mem_singleton, List.not_mem_nil, or_false] at he
          rcases he with he | he
          · exact Or.inl ⟨_, he⟩
          · exact Or.inr ⟨_, _, he⟩

theorem resolveEphemeral_ok {σ : Type} {env : Env σ} {source : Client} {name : String}
    {ephemeral eph : Int} {s s2 : St σ}
    (h : resolveEphemeral env source name ephemeral s = (Except.ok eph, s2)) :
    (ephemeral = -1 ∧ ∃ ct, s2.calls = s.calls ++ [Event.containerInfo source name (Except.ok ct)]
        ∧ eph = if ct.ephemeral then 1 else 0)
      ∨ (ephemeral ≠ -1 ∧ s2 = s ∧ eph = ephemeral) := by
  unfold resolveEphemeral at h
  split at h
  · next hm =>
    left
    refine ⟨hm, ?_⟩
    split at h
    · simp at h
    · next ct s1 hc =>
      refine ⟨ct, ?_⟩
      split at h
      · next hct =>
        simp only [Prod.mk.injEq, Except.ok.injEq] at h
        obtain ⟨h1, h2⟩ := h
        subst h1 h2
        exact ⟨callContainerInfo_eq hc, by simp [hct]⟩
      · next hct =>
        simp only [Prod.mk.injEq, Except.ok.injEq] at h
        obtain ⟨h1, h2⟩ := h
        subst h1 h2
        exact ⟨callContainerInfo_eq hc, by simp [hct]⟩
  · next hm =>
    right
    simp only [Prod.mk.injEq, Except.ok.injEq] at h
    exact ⟨hm, h.2.symm, h.1.symm⟩

theorem resolveEphemeral_calls {σ : Type} (env : Env σ) (source : Client) (name : String)
    (ephemeral : Int) (s : St σ) :
    ∃ new, (resolveEphemeral env source name ephemeral s).2.calls = s.calls ++ new ∧
      ∀ e ∈ new, ∃ r, e = Event.containerInfo source name r := by
  unfold resolveEphemeral
  split
  · split
    · next e s1 h =>
      exact ⟨[Event.containerInfo source name (Except.error e)], callContainerInfo_eq h, by simp⟩
    · next ct s1 h =>
      refine ⟨[Event.containerInfo source name (Except.ok ct)], ?_, by simp⟩
      split <;> exact callContainerInfo_eq h
  · exact ⟨[], by simp, by simp⟩

theorem forall_mem_snoc {P : Event → Prop} {l l1 : List Event} {ev : Event}
    (h1 : l1 = l ++ [ev]) (hl : ∀ e ∈ l, P e) (hev : P ev) : ∀ e ∈ l1, P e := by
  intro e he
  rw [h1, List.mem_append, List.mem_singleton] at he
  rcases he with he | he
  · exact hl e he
  · rw [he]; exact hev

theorem forall_mem_append {P : Event → Prop} {l l1 new : List Event}
    (h1 : l1 = l ++ new) (hl : ∀ e ∈ l, P e) (hnew : ∀ e ∈ new, P e) : ∀ e ∈ l1, P e := by
  intro e he
  rw [h1, List.mem_append] at he
  rcases he with he | he
  · exact hl e he
  · exact hnew e he

/-- The requests before the loop are neither `LocalCopy` nor `MigrateFrom`. -/
theorem migrationSetup_mem {σ : Type} (env : Env σ) (g : Globals) (source : Client)
    (sourceName destRemote destName destResource : String) (r : Reconciled) (ephemeral : Int)
    (s : St σ) (P : Event → Prop) (hs : ∀ e ∈ s.calls, P e)
    (hP : ∀ e : Event, e.isLocalCopy = false → e.isMigrateFrom = false → P e) :
    ∀ e ∈ (migrationSetup env g source sourceName destRemote destName destResource r
        ephemeral s).2.calls, P e := by
  unfold migrationSetup
  split
  · exact hs
  next dest _ =>
  split
  · next e s1 h1 => exact forall_mem_snoc (callListProfiles_eq h1) hs (hP _ rfl rfl)
  next dp s1 h1 =>
  have q1 := forall_mem_snoc (callListProfiles_eq h1) hs (hP _ rfl rfl)
  split
  · exact q1
  have q2 : ∀ x s2, resolveEphemeral env source sourceName ephemeral s1 = (x, s2) →
      ∀ e ∈ s2.calls, P e := by
    intro x s2 h2
    obtain ⟨new, hn, hk⟩ := resolveEphemeral_calls env source sourceName ephemeral s1
    rw [h2] at hn
    refine forall_mem_append hn q1 ?_
    intro e he
    obtain ⟨r, hr⟩ := hk e he
    rw [hr]
    exact hP _ rfl rfl
  split
  · next e s2 h2 => exact q2 _ _ h2
  next eph s2 h2 =>
  have q2 := q2 _ _ h2
  split
  · next e s3 h3 => exact forall_mem_snoc (callGetMigrationSourceWS_eq h3) q2 (hP _ rfl rfl)
  next ws s3 h3 =>
  have q3 := forall_mem_snoc (callGetMigrationSourceWS_eq h3) q2 (hP _ rfl rfl)
  split
  · exact q3
  split
  · next e s4 h4 => exact forall_mem_snoc (callAddresses_eq h4) q3 (hP _ rfl rfl)
  next sa s4 h4 =>
  have q4 := forall_mem_snoc (callAddresses_eq h4) q3 (hP _ rfl rfl)
  split
  · next e s5 h5 => exact forall_mem_snoc (callGetMigrationSourceWS_eq h5) q4 (hP _ rfl rfl)
  next wd s5 h5 =>
  have q5 := forall_mem_snoc (callGetMigrationSourceWS_eq h5) q4 (hP _ rfl rfl)
  split
  · exact q5
  split
  · next e s6 h6 => exact forall_mem_snoc (callAddresses_eq h6) q5 (hP _ rfl rfl)
  next da s6 h6 =>
  exact forall_mem_snoc (callAddresses_eq h6) q5 (hP _ rfl rfl)

/-- How the loop is reached: every request before it succeeded, the profiles of
the source all exist on the destination, and the loop variables are those the
requests returned. -/
theorem migrationSetup_atLoop {σ : Type} {env : Env σ} {g : Globals} {source : Client}
    {sourceName destRemote destName destResource : String} {r : Reconciled} {ephemeral : Int}
    {s s6 : St σ} {ctx : LoopCtx}
    (h : migrationSetup env g source sourceName destRemote destName destResource r ephemeral s
      = (Setup.atLoop ctx, s6)) :
    ∃ dest dp requery ws sa wd da,
      env.newClient destRemote = Except.ok dest ∧
      s6.calls = s.calls ++ [Event.listProfiles dest (Except.ok dp)] ++ requery ++
        [Event.getMigrationSourceWS source sourceName g.usePush (Except.ok ws),
         Event.addresses source (Except.ok sa),
         Event.getMigrationSourceWS dest destName g.usePush (Except.ok wd),
         Event.addresses dest (Except.ok da)] ∧
      ((ephemeral = -1 ∧ ∃ ct, requery = [Event.containerInfo source sourceName (Except.ok ct)]
          ∧ ctx.ephemeral = if ct.ephemeral then 1 else 0)
        ∨ (ephemeral ≠ -1 ∧ requery = [] ∧ ctx.ephemeral = ephemeral)) ∧
      ctx.source = source ∧ ctx.dest = dest ∧ ctx.destName = destName ∧
      ctx.destResource = destResource ∧ ctx.status = r.status ∧ ctx.baseImage = r.baseImage ∧
      ctx.sourceAddresses = sa ∧ ctx.usePush = g.usePush ∧ ctx.sourceWSResponse = ws := by
  unfold migrationSetup at h
  split at h
  · simp at h
  next dest hd =>
  split at h
  · simp at h
  next dp s1 h1 =>
  split at h
  · simp at h
  split at h
  · simp at h
  next eph s2 h2 =>
  split at h
  · simp at h
  next ws s3 h3 =>
  split at h
  · simp at h
  next op hop =>
  split at h
  · simp at h
  next sa s4 h4 =>
  split at h
  · simp at h
  next wd s5 h5 =>
  split at h
  · simp at h
  split at h
  · simp at h
  next da s6 h6 =>
  simp only [Prod.mk.injEq, Setup.atLoop.injEq] at h
  obtain ⟨hctx, hs6⟩ := h
  subst hctx hs6
  have e1 := callListProfiles_eq h1
  have e3 := callGetMigrationSourceWS_eq h3
  have e4 := callAddresses_eq h4
  have e5 := callGetMigrationSourceWS_eq h5
  have e6 := callAddresses_eq h6
  rcases resolveEphemeral_ok h2 with ⟨hm, ct, hc, he⟩ | ⟨hm, hc, he⟩
  · refine ⟨dest, dp, [Event.containerInfo source sourceName (Except.ok ct)], ws, sa, wd, da,
      hd, ?_, Or.inl ⟨hm, ct, rfl, he⟩, rfl, rfl, rfl, rfl, rfl, rfl, rfl, rfl, rfl⟩
    rw [e6, e5, e4, e3, hc, e1]
    simp
  · refine ⟨dest, dp, [], ws, sa, wd, da,
      hd, ?_, Or.inr ⟨hm, rfl, he⟩, rfl, rfl, rfl, rfl, rfl, rfl, rfl, rfl, rfl⟩
    rw [e6, e5, e4, e3, hc, e1]
    simp

/-- How `copySetup` reaches the loop: through a successful metadata fetch and,
the two remotes being different, through `migrationSetup`. -/
theorem copySetup_atLoop {σ : Type} {env : Env σ} {g : Globals} {c : CopyCmd}
    {sourceResource destResource : String} {keepVolatile : Bool} {ephemeral : Int} {w : σ}
    {ctx : LoopCtx} {s1 : St σ}
    (h : copySetup env g c sourceResource destResource keepVolatile ephemeral w
      = (Setup.atLoop ctx, s1)) :
    ∃ source status s0 fetchEv,
      (env.parseRemoteAndContainer sourceResource).2 ≠ "" ∧
      env.newClient (env.parseRemoteAndContainer sourceResource).1 = Except.ok source ∧
      fetchStatus env source (env.parseRemoteAndContainer sourceResource).2 ⟨w, []⟩
        = (Except.ok status, s0) ∧
      s0.calls = [fetchEv] ∧ fetchEv.isMetadataFetch = true ∧
      (env.parseRemoteAndContainer sourceResource).1
        ≠ (env.parseRemoteAndContainer destResource).1 ∧
      migrationSetup env g source (env.parseRemoteAndContainer sourceResource).2
        (env.parseRemoteAndContainer destResource).1
        (destNameOf env sourceResource destResource) destResource
        (reconcile c g keepVolatile status) ephemeral s0 = (Setup.atLoop ctx, s1) := by
  unfold copySetup at h
  split at h
  · simp at h
  next hname =>
  split at h
  · simp at h
  next source hsrc =>
  split at h
  · simp at h
  next status s0 hf =>
  split at h
  · simp at h
  next hrem =>
  obtain ⟨ev, hev, hcalls⟩ := fetchStatus_calls env source
    (env.parseRemoteAndContainer sourceResource).2 ⟨w, []⟩
  rw [hf] at hcalls
  exact ⟨source, status, s0, ev, hname, hsrc, hf, by simpa using hcalls, hev, hrem, h⟩

/-- The loop, spelled out: either every address was tried and refused, or the
addresses were tried in order up to the first accepted request, which was then
waited for. -/
theorem addressLoop_spec {σ : Type} (env : Env σ) (ctx : LoopCtx) (addrs : List String)
    (err : Option Err) (s : St σ) :
    (∃ errs : List Err, errs.length = addrs.length ∧
        (addressLoop env ctx addrs err s).2.calls
          = s.calls ++ List.zipWith (failedAttempt ctx) addrs errs ∧
        (addressLoop env ctx addrs err s).1
          = (match errs.getLast? with
             | some e => some e
             | none => err))
    ∨ (∃ (pre : List String) (a : String) (post : List String) (errs : List Err)
        (m : Response) (r : Option Err),
        addrs = pre ++ a :: post ∧ errs.length = pre.length ∧
        (addressLoop env ctx addrs err s).2.calls
          = s.calls ++ List.zipWith (failedAttempt ctx) pre errs ++
            [Event.migrateFrom ctx.dest (migrateArgs ctx a) (Except.ok m),
             Event.waitForSuccess ctx.dest m.operation r] ∧
        (addressLoop env ctx addrs err s).1
          = (match r with
             | some e => some e
             | none => if ctx.destResource = "" then reportName m else none)) := by
  induction addrs generalizing err s with
  | nil =>
    left
    exact ⟨[], rfl, by simp [addressLoop], by simp [addressLoop]⟩
  | cons a t ih =>
    rw [addressLoop]
    split
    · next e s1 h1 =>
      have e1 := callMigrateFrom_eq h1
      rcases ih (some e) s1 with ⟨errs, hl, hc, hr⟩ | ⟨pre, b, post, errs, m, r, ha, hl, hc, hr⟩
      · left
        refine ⟨e :: errs, by simp [hl], ?_, ?_⟩
        · rw [hc, e1]
          simp [failedAttempt]
        · rw [hr]
          cases errs with
          | nil => simp
          | cons x xs =>
            rw [List.getLast?_cons_cons]
            obtain ⟨y, hy⟩ : ∃ y, (x :: xs).getLast? = some y :=
              ⟨_, List.getLast?_eq_getLast _ (List.cons_ne_nil x xs)⟩
            simp [hy]
      · right
        refine ⟨a :: pre, b, post, e :: errs, m, r, by simp [ha], by simp [hl], ?_, hr⟩
        rw [hc, e1]
        simp [failedAttempt]
    · next m s1 h1 =>
      have e1 := callMigrateFrom_eq h1
      right
      split
      · next e s2 h2 =>
        refine ⟨[], a, t, [], m, some e, rfl, rfl, ?_, rfl⟩
        rw [callWaitForSuccess_eq h2, e1]
        simp
      · next s2 h2 =>
        refine ⟨[], a, t, [], m, none, rfl, rfl, ?_, ?_⟩
        · split <;> (rw [callWaitForSuccess_eq h2, e1]; simp)
        · split <;> simp_all

/-- The loop only adds `MigrateFrom` requests built by `migrateArgs` and waits. -/
theorem addressLoop_mem {σ : Type} (env : Env σ) (ctx : LoopCtx) (P : Event → Prop)
    (hm : ∀ a r, P (Event.migrateFrom ctx.dest (migrateArgs ctx a) r))
    (hw : ∀ op r, P (Event.waitForSuccess ctx.dest op r))
    (addrs : List String) (err : Option Err) (s : St σ) (hs : ∀ e ∈ s.calls, P e) :
    ∀ e ∈ (addressLoop env ctx addrs err s).2.calls, P e := by
  induction addrs generalizing err s with
  | nil => simpa [addressLoop] using hs
  | cons a t ih =>
    rw [addressLoop]
    split
    · next e s1 h1 => exact ih (some e) s1 (forall_mem_snoc (callMigrateFrom_eq h1) hs (hm _ _))
    · next m s1 h1 =>
      have q1 := forall_mem_snoc (callMigrateFrom_eq h1) hs (hm _ _)
      split
      · next e s2 h2 => exact forall_mem_snoc (callWaitForSuccess_eq h2) q1 (hw _ _)
      · next s2 h2 =>
        split <;> exact forall_mem_snoc (callWaitForSuccess_eq h2) q1 (hw _ _)

/-- Nothing before the loop is a `MigrateFrom` or a `LocalCopy` request when the
loop is reached. -/
theorem copySetup_atLoop_mem {σ : Type} {env : Env σ} {g : Globals} {c : CopyCmd}
    {sourceResource destResource : String} {keepVolatile : Bool} {ephemeral : Int} {w : σ}
    {ctx : LoopCtx} {s1 : St σ}
    (h : copySetup env g c sourceResource destResource keepVolatile ephemeral w
      = (Setup.atLoop ctx, s1)) :
    ∀ e ∈ s1.calls, e.isLocalCopy = false ∧ e.isMigrateFrom = false := by
  obtain ⟨source, status, s0, ev, _, _, _, hcalls, hev, _, hm⟩ := copySetup_atLoop h
  have key := migrationSetup_mem env g source (env.parseRemoteAndContainer sourceResource).2
    (env.parseRemoteAndContainer destResource).1
    (destNameOf env sourceResource destResource) destResource
    (reconcile c g keepVolatile status) ephemeral s0
    (fun e => e.isLocalCopy = false ∧ e.isMigrateFrom = false)
    (by
      intro e he
      rw [hcalls, List.mem_singleton] at he
      subst he
      cases e <;> simp_all [Event.isMetadataFetch, Event.isLocalCopy, Event.isMigrateFrom])
    (fun e h1 h2 => ⟨h1, h2⟩)
  rw [hm] at key
  exact key

/-- Every request of a run whose metadata fetch succeeded carries the reconciled
config and profiles, and a migration request the captured base image. -/
theorem copyContainer_carries {σ : Type} (env : Env σ) (g : Globals) (c : CopyCmd)
    (sourceResource destResource : String) (keepVolatile : Bool) (ephemeral : Int) (w : σ)
    (source : Client) (status : Status) (s0 : St σ)
    (hname : (env.parseRemoteAndContainer sourceResource).2 ≠ "")
    (hsrc : env.newClient (env.parseRemoteAndContainer sourceResource).1 = Except.ok source)
    (hfetch : fetchStatus env source (env.parseRemoteAndContainer sourceResource).2 ⟨w, []⟩
      = (Except.ok status, s0)) :
    ∀ e ∈ (copyContainer env g c sourceResource destResource keepVolatile ephemeral w).2.calls,
      Event.Carries (reconcile c g keepVolatile status) e := by
  have h0 : ∀ e ∈ s0.calls, Event.Carries (reconcile c g keepVolatile status) e := by
    obtain ⟨ev, hev, hcalls⟩ := fetchStatus_calls env source
      (env.parseRemoteAndContainer sourceResource).2 ⟨w, []⟩
    rw [hfetch] at hcalls
    intro e he
    rw [hcalls] at he
    simp only [List.nil_append, List.mem_singleton] at he
    subst he
    cases e <;> simp_all [Event.isMetadataFetch, Event.Carries]
  have hother : ∀ e : Event, e.isLocalCopy = false → e.isMigrateFrom = false →
      Event.Carries (reconcile c g keepVolatile status) e := by
    intro e h1 h2
    cases e <;> simp_all [Event.isLocalCopy, Event.isMigrateFrom, Event.Carries]
  unfold copyContainer
  split
  · next err s hset =>
    unfold copySetup at hset
    rw [if_neg hname, hsrc] at hset
    simp only [hfetch] at hset
    split at hset
    · simp only [Prod.mk.injEq, Setup.returned.injEq] at hset
      obtain ⟨new, hn, hk⟩ := localCopyPath_calls env source
        (env.parseRemoteAndContainer sourceResource).2
        (destNameOf env sourceResource destResource) destResource
        (reconcile c g keepVolatile status).status ephemeral s0
      rw [hset.2] at hn
      refine forall_mem_append hn h0 ?_
      intro e he
      rcases hk e he with ⟨r, hr⟩ | ⟨op, r, hr⟩
      · rw [hr]; exact ⟨rfl, rfl⟩
      · rw [hr]; trivial
    · have key := migrationSetup_mem env g source
        (env.parseRemoteAndContainer sourceResource).2
        (env.parseRemoteAndContainer destResource).1
        (destNameOf env sourceResource destResource) destResource
        (reconcile c g keepVolatile status) ephemeral s0 _ h0 hother
      rw [hset] at key
      exact key
  · next ctx s1 hset =>
    obtain ⟨source2, status2, s02, ev, _, hsrc2, hfetch2, _, _, _, hm⟩ := copySetup_atLoop hset
    rw [hsrc] at hsrc2
    cases hsrc2
    rw [hfetch] at hfetch2
    cases hfetch2
    obtain ⟨dest, dp, requery, ws, sa, wd, da, _, _, _, _, _, _, _, hst, hbi, _, _, _⟩ :=
      migrationSetup_atLoop hm
    have key := migrationSetup_mem env g source
      (env.parseRemoteAndContainer sourceResource).2
      (env.parseRemoteAndContainer destResource).1
      (destNameOf env sourceResource destResource) destResource
      (reconcile c g keepVolatile status) ephemeral s0 _ h0 hother
    rw [hm] at key
    refine addressLoop_mem env ctx _ ?_ ?_ _ _ _ key
    · intro a r
      simp only [Event.Carries, migrateArgs, hst, hbi, and_self]
    · intro op r
      trivial

/-- The loop extends the log by `MigrateFrom` requests built by `migrateArgs`
and by waits. -/
theorem addressLoop_append {σ : Type} (env : Env σ) (ctx : LoopCtx) (P : Event → Prop)
    (hm : ∀ a r, P (Event.migrateFrom ctx.dest (migrateArgs ctx a) r))
    (hw : ∀ op r, P (Event.waitForSuccess ctx.dest op r))
    (addrs : List String) (err : Option Err) (s : St σ) :
    ∃ new, (addressLoop env ctx addrs err s).2.calls = s.calls ++ new ∧ ∀ e ∈ new, P e := by
  rcases addressLoop_spec env ctx addrs err s with
    ⟨errs, _, hc, _⟩ | ⟨pre, a, post, errs, m, r, _, _, hc, _⟩
  · refine ⟨_, hc, ?_⟩
    intro e he
    rw [List.mem_iff_getElem] at he
    obtain ⟨i, hi, rfl⟩ := he
    simp only [List.getElem_zipWith, failedAttempt]
    exact hm _ _
  · refine ⟨_, by rw [hc, List.append_assoc], ?_⟩
    intro e he
    rw [List.mem_append] at he
    rcases he with he | he
    · rw [List.mem_iff_getElem] at he
      obtain ⟨i, hi, rfl⟩ := he
      simp only [List.getElem_zipWith, failedAttempt]
      exact hm _ _
    · simp only [List.mem_cons, List.mem_singleton, List.not_mem_nil, or_false] at he
      rcases he with he | he
      · rw [he]; exact hm _ _
      · rw [he]; exact hw _ _

/-- C1: in the cross-remote path, once the address loop is reached, the log is
extended in one of two ways.  Either no request was accepted, and then
`MigrateFrom` was called once on every source address, in list order.  Or there
is a first index `i` whose `MigrateFrom` call returned no error: then
`MigrateFrom` was called on the addresses `0..i` in list order, the calls on
`0..i-1` having failed, the accepted operation was waited for, nothing was
called after that, and `copyContainer` returns the error of `WaitForSuccess`
when the operation fails (when it succeeds: nil, or, no destination resource
having been given, the outcome of reading the container name off the reply).
No `MigrateFrom` call precedes the loop. -/
theorem copyContainer_first_accepted {σ : Type} (env : Env σ) (g : Globals) (c : CopyCmd)
    (sourceResource destResource : String) (keepVolatile : Bool) (ephemeral : Int) (w : σ)
    (ctx : LoopCtx) (s1 : St σ)
    (hreach : copySetup env g c sourceResource destResource keepVolatile ephemeral w
      = (Setup.atLoop ctx, s1)) :
    (∀ e ∈ s1.calls, e.isMigrateFrom = false) ∧
    ((∃ errs : List Err, errs.length = ctx.sourceAddresses.length ∧
        (copyContainer env g c sourceResource destResource keepVolatile ephemeral w).2.calls
          = s1.calls ++ List.zipWith (failedAttempt ctx) ctx.sourceAddresses errs)
    ∨ (∃ (i : Nat) (a : String) (errs : List Err) (m : Response) (r : Option Err),
        ctx.sourceAddresses[i]? = some a ∧ errs.length = i ∧
        (copyContainer env g c sourceResource destResource keepVolatile ephemeral w).2.calls
          = s1.calls ++ List.zipWith (failedAttempt ctx) (ctx.sourceAddresses.take i) errs ++
            [Event.migrateFrom ctx.dest (migrateArgs ctx a) (Except.ok m),
             Event.waitForSuccess ctx.dest m.operation r] ∧
        (copyContainer env g c sourceResource destResource keepVolatile ephemeral w).1
          = (match r with
             | some e => some e
             | none => if ctx.destResource = "" then reportName m else none))) := by
  refine ⟨fun e he => (copySetup_atLoop_mem hreach e he).2, ?_⟩
  unfold copyContainer
  rw [hreach]
  rcases addressLoop_spec env ctx ctx.sourceAddresses none s1 with
    ⟨errs, hl, hc, _⟩ | ⟨pre, a, post, errs, m, r, ha, hl, hc, hr⟩
  · exact Or.inl ⟨errs, hl, hc⟩
  · right
    refine ⟨pre.length, a, errs, m, r, ?_, hl, ?_, hr⟩
    · rw [ha, List.getElem?_append_right (le_refl _)]; simp
    · simp only [hc]
      rw [ha]; simp

/-- C1, witness: with three addresses of which the destination accepts the
third. -/
theorem copyContainer_first_accepted_witness :
    (∀ e ∈ (copySetup (exampleEnv threeAddrs ["default"]) exampleGlobals exampleCmd
        "a:c1" "b:c2" false 0 0).2.calls, e.isMigrateFrom = false) ∧
    ((∃ errs : List Err, errs.length = (exampleCtx threeAddrs 0).sourceAddresses.length ∧
        (copyContainer (exampleEnv threeAddrs ["default"]) exampleGlobals exampleCmd
          "a:c1" "b:c2" false 0 0).2.calls
          = (copySetup (exampleEnv threeAddrs ["default"]) exampleGlobals exampleCmd
              "a:c1" "b:c2" false 0 0).2.calls
            ++ List.zipWith (failedAttempt (exampleCtx threeAddrs 0))
              (exampleCtx threeAddrs 0).sourceAddresses errs)
    ∨ (∃ (i : Nat) (a : String) (errs : List Err) (m : Response) (r : Option Err),
        (exampleCtx threeAddrs 0).sourceAddresses[i]? = some a ∧ errs.length = i ∧
        (copyContainer (exampleEnv threeAddrs ["default"]) exampleGlobals exampleCmd
          "a:c1" "b:c2" false 0 0).2.calls
          = (copySetup (exampleEnv threeAddrs ["default"]) exampleGlobals exampleCmd
              "a:c1" "b:c2" false 0 0).2.calls
            ++ List.zipWith (failedAttempt (exampleCtx threeAddrs 0))
              ((exampleCtx threeAddrs 0).sourceAddresses.take i) errs ++
            [Event.migrateFrom (exampleCtx threeAddrs 0).dest
               (migrateArgs (exampleCtx threeAddrs 0) a) (Except.ok m),
             Event.waitForSuccess (exampleCtx threeAddrs 0).dest m.operation r] ∧
        (copyContainer (exampleEnv threeAddrs ["default"]) exampleGlobals exampleCmd
          "a:c1" "b:c2" false 0 0).1
          = (match r with
             | some e => some e
             | none =>
               if (exampleCtx threeAddrs 0).destResource = "" then reportName m else none))) :=
  copyContainer_first_accepted (exampleEnv threeAddrs ["default"]) exampleGlobals exampleCmd
    "a:c1" "b:c2" false 0 0 (exampleCtx threeAddrs 0)
    (copySetup (exampleEnv threeAddrs ["default"]) exampleGlobals exampleCmd
      "a:c1" "b:c2" false 0 0).2 rfl

/-- C2: in the cross-remote path, when the address loop is reached with a
non-empty list of source addresses and no `MigrateFrom` call of the run was
accepted, `MigrateFrom` was called on every address exactly once, in list
order, no `MigrateFrom` call precedes the loop, and `copyContainer` returns the
error of the call on the last address. -/
theorem copyContainer_all_refused {σ : Type} (env : Env σ) (g : Globals) (c : CopyCmd)
    (sourceResource destResource : String) (keepVolatile : Bool) (ephemeral : Int) (w : σ)
    (ctx : LoopCtx) (s1 : St σ)
    (hreach : copySetup env g c sourceResource destResource keepVolatile ephemeral w
      = (Setup.atLoop ctx, s1))
    (hne : ctx.sourceAddresses ≠ [])
    (hall : ∀ e ∈ (copyContainer env g c sourceResource destResource keepVolatile
      ephemeral w).2.calls, e.isAccepted = false) :
    (∀ e ∈ s1.calls, e.isMigrateFrom = false) ∧
    ∃ (errs : List Err) (last : Err),
      errs.length = ctx.sourceAddresses.length ∧
      (copyContainer env g c sourceResource destResource keepVolatile ephemeral w).2.calls
        = s1.calls ++ List.zipWith (failedAttempt ctx) ctx.sourceAddresses errs ∧
      errs.getLast? = some last ∧
      (copyContainer env g c sourceResource destResource keepVolatile ephemeral w).1
        = some last := by
  refine ⟨fun e he => (copySetup_atLoop_mem hreach e he).2, ?_⟩
  unfold copyContainer at hall ⊢
  rw [hreach] at hall ⊢
  simp only at hall ⊢
  rcases addressLoop_spec env ctx ctx.sourceAddresses none s1 with
    ⟨errs, hl, hc, hr⟩ | ⟨pre, a, post, errs, m, r, _, _, hc, _⟩
  · have hne2 : errs ≠ [] := by
      intro h0
      rw [h0] at hl
      exact hne (List.length_eq_zero.mp hl.symm)
    have hlast := List.getLast?_eq_getLast errs hne2
    refine ⟨errs, errs.getLast hne2, hl, hc, hlast, ?_⟩
    rw [hr, hlast]
  · exfalso
    have := hall (Event.migrateFrom ctx.dest (migrateArgs ctx a) (Except.ok m))
      (by rw [hc]; simp)
    simp [Event.isAccepted] at this

/-- C2, witness: two addresses, both refused; the error returned is that of
the second. -/
theorem copyContainer_all_refused_witness :
    (copyContainer (exampleEnv twoAddrs ["default"]) exampleGlobals exampleCmd
      "a:c1" "b:c2" false 0 0).1
      = some "unreachable: https://10.0.0.2:8443/1.0/operations/ws" ∧
    ((∀ e ∈ (copySetup (exampleEnv twoAddrs ["default"]) exampleGlobals exampleCmd
        "a:c1" "b:c2" false 0 0).2.calls, e.isMigrateFrom = false) ∧
    ∃ (errs : List Err) (last : Err),
      errs.length = (exampleCtx twoAddrs 0).sourceAddresses.length ∧
      (copyContainer (exampleEnv twoAddrs ["default"]) exampleGlobals exampleCmd
        "a:c1" "b:c2" false 0 0).2.calls
        = (copySetup (exampleEnv twoAddrs ["default"]) exampleGlobals exampleCmd
            "a:c1" "b:c2" false 0 0).2.calls
          ++ List.zipWith (failedAttempt (exampleCtx twoAddrs 0))
            (exampleCtx twoAddrs 0).sourceAddresses errs ∧
      errs.getLast? = some last ∧
      (copyContainer (exampleEnv twoAddrs ["default"]) exampleGlobals exampleCmd
        "a:c1" "b:c2" false 0 0).1 = some last) :=
  ⟨rfl,
   copyContainer_all_refused (exampleEnv twoAddrs ["default"]) exampleGlobals exampleCmd
    "a:c1" "b:c2" false 0 0 (exampleCtx twoAddrs 0)
    (copySetup (exampleEnv twoAddrs ["default"]) exampleGlobals exampleCmd
      "a:c1" "b:c2" false 0 0).2 rfl (by decide) (by decide)⟩

/-- C10: in the cross-remote path, when both handshake requests and both
`Addresses` calls succeed and the source advertises no address, the loop is
reached with an empty list and `copyContainer` returns nil, the log being that
of the requests before the loop, none of which is a `MigrateFrom` request. -/
theorem copyContainer_no_address {σ : Type} (env : Env σ) (g : Globals) (c : CopyCmd)
    (sourceResource destResource : String) (keepVolatile : Bool) (ephemeral : Int) (w : σ)
    (ctx : LoopCtx) (s1 : St σ)
    (hreach : copySetup env g c sourceResource destResource keepVolatile ephemeral w
      = (Setup.atLoop ctx, s1))
    (hempty : ctx.sourceAddresses = []) :
    copyContainer env g c sourceResource destResource keepVolatile ephemeral w = (none, s1) ∧
    (∀ e ∈ s1.calls, e.isMigrateFrom = false) ∧
    ∃ (pre : List Event) (ws wd : Response) (da : List String),
      s1.calls = pre ++
        [Event.getMigrationSourceWS ctx.source
           (env.parseRemoteAndContainer sourceResource).2 g.usePush (Except.ok ws),
         Event.addresses ctx.source (Except.ok []),
         Event.getMigrationSourceWS ctx.dest ctx.destName g.usePush (Except.ok wd),
         Event.addresses ctx.dest (Except.ok da)] := by
  refine ⟨?_, fun e he => (copySetup_atLoop_mem hreach e he).2, ?_⟩
  · unfold copyContainer
    rw [hreach]
    simp only [hempty, addressLoop]
  · obtain ⟨source, status, s0, ev, _, _, _, _, _, _, hm⟩ := copySetup_atLoop hreach
    obtain ⟨dest, dp, requery, ws, sa, wd, da, _, hcalls, _, hs, hd, hn, _, _, _, hsa, _, _⟩ :=
      migrationSetup_atLoop hm
    refine ⟨s0.calls ++ [Event.listProfiles dest (Except.ok dp)] ++ requery, ws, wd, da, ?_⟩
    rw [hcalls, hs, hd, hn, ← hempty, hsa]

/-- C10, witness: the source advertises no address, and the copy "succeeds". -/
theorem copyContainer_no_address_witness :
    (exampleCtx [] 0).sourceAddresses = [] ∧
    copyContainer (exampleEnv [] ["default"]) exampleGlobals exampleCmd "a:c1" "b:c2" false 0 0
      = (none, (copySetup (exampleEnv [] ["default"]) exampleGlobals exampleCmd
          "a:c1" "b:c2" false 0 0).2) :=
  ⟨rfl,
   (copyContainer_no_address (exampleEnv [] ["default"]) exampleGlobals exampleCmd
    "a:c1" "b:c2" false 0 0 (exampleCtx [] 0)
    (copySetup (exampleEnv [] ["default"]) exampleGlobals exampleCmd
      "a:c1" "b:c2" false 0 0).2 rfl rfl).1⟩

/-- The profile check passes exactly when every name of the first list occurs in
the second, whatever the order and the repetitions. -/
theorem isSubset_iff (l d : List String) :
    StringSet.IsSubset (NewStringSet l) (NewStringSet d) = true ↔ ∀ p ∈ l, p ∈ d := by
  unfold StringSet.IsSubset NewStringSet
  rw [decide_eq_true_iff]
  constructor
  · intro h p hp
    exact List.mem_toFinset.mp (h (List.mem_toFinset.mpr hp))
  · intro h p hp
    exact List.mem_toFinset.mpr (h p (List.mem_toFinset.mp hp))

/-- C3: in a cross-remote invocation whose metadata fetch and `ListProfiles`
call succeed, if some name of the reconciled profile list (the profiles of the
source followed by the caller's) is missing from the list the destination
returned, `copyContainer` returns the profile-mismatch error, the log is the
metadata fetch followed by the `ListProfiles` call, and so holds neither a
`GetMigrationSourceWS` nor a `MigrateFrom` request.  The test only looks at
which names occur in the two lists: lists with the same members give the same
verdict. -/
theorem copyContainer_profile_mismatch {σ : Type} (env : Env σ) (g : Globals) (c : CopyCmd)
    (sourceResource destResource : String) (keepVolatile : Bool) (ephemeral : Int) (w : σ)
    (source dest : Client) (status : Status) (s0 : St σ) (dp : List String) (w1 : σ)
    (hname : (env.parseRemoteAndContainer sourceResource).2 ≠ "")
    (hsrc : env.newClient (env.parseRemoteAndContainer sourceResource).1 = Except.ok source)
    (hfetch : fetchStatus env source (env.parseRemoteAndContainer sourceResource).2 ⟨w, []⟩
      = (Except.ok status, s0))
    (hrem : (env.parseRemoteAndContainer sourceResource).1
      ≠ (env.parseRemoteAndContainer destResource).1)
    (hdst : env.newClient (env.parseRemoteAndContainer destResource).1 = Except.ok dest)
    (hlist : env.listProfiles dest s0.world = (Except.ok dp, w1))
    (hmiss : ∃ p ∈ appendProfiles status.profiles c.profArgs, p ∉ dp) :
    (copyContainer env g c sourceResource destResource keepVolatile ephemeral w).1
      = some errProfiles ∧
    (copyContainer env g c sourceResource destResource keepVolatile ephemeral w).2.calls
      = s0.calls ++ [Event.listProfiles dest (Except.ok dp)] ∧
    (∃ ev, ev.isMetadataFetch = true ∧ s0.calls = [ev]) ∧
    (∀ e ∈ (copyContainer env g c sourceResource destResource keepVolatile
      ephemeral w).2.calls, e.isHandshake = false ∧ e.isMigrateFrom = false) ∧
    (∀ l l2 d d2 : List String, (∀ p, p ∈ l ↔ p ∈ l2) → (∀ p, p ∈ d ↔ p ∈ d2) →
      StringSet.IsSubset (NewStringSet l) (NewStringSet d)
        = StringSet.IsSubset (NewStringSet l2) (NewStringSet d2)) := by
  have hfalse : StringSet.IsSubset
      (NewStringSet (reconcile c g keepVolatile status).status.profiles) (NewStringSet dp)
      = false := by
    rw [← Bool.not_eq_true, isSubset_iff]
    intro hall
    obtain ⟨p, hp, hnp⟩ := hmiss
    exact hnp (hall p hp)
  have hrun : copyContainer env g c sourceResource destResource keepVolatile ephemeral w
      = (some errProfiles, ⟨w1, s0.calls ++ [Event.listProfiles dest (Except.ok dp)]⟩) := by
    unfold copyContainer copySetup
    rw [if_neg hname, hsrc]
    simp only [hfetch]
    rw [if_neg hrem]
    unfold migrationSetup
    rw [hdst]
    simp only [callListProfiles, hlist, hfalse]
    rfl
  obtain ⟨ev, hev, hcalls⟩ := fetchStatus_calls env source
    (env.parseRemoteAndContainer sourceResource).2 ⟨w, []⟩
  rw [hfetch] at hcalls
  simp only [List.nil_append] at hcalls
  refine ⟨by rw [hrun], by rw [hrun], ⟨ev, hev, hcalls⟩, ?_, ?_⟩
  · rw [hrun]
    intro e he
    simp only [hcalls, List.mem_append, List.mem_singleton, List.cons_append,
      List.nil_append, List.mem_cons, List.not_mem_nil, or_false] at he
    rcases he with he | he
    · subst he
      cases e <;> simp_all [Event.isMetadataFetch, Event.isHandshake, Event.isMigrateFrom]
    · subst he
      exact ⟨rfl, rfl⟩
  · intro l l2 d d2 hl hd
    rw [Bool.eq_iff_iff, isSubset_iff, isSubset_iff]
    constructor
    · intro h p hp
      exact (hd p).mp (h p ((hl p).mpr hp))
    · intro h p hp
      exact (hd p).mpr (h p ((hl p).mp hp))

/-- C3, witness: the destination lacks the profile `default`. -/
theorem copyContainer_profile_mismatch_witness :
    (copyContainer (exampleEnv threeAddrs ["other"]) exampleGlobals exampleCmd
      "a:c1" "b:c2" false 0 0).1 = some errProfiles ∧
    (copyContainer (exampleEnv threeAddrs ["other"]) exampleGlobals exampleCmd
      "a:c1" "b:c2" false 0 0).2.calls
      = [Event.containerInfo ⟨"a", "cert-a"⟩ "c1" (Except.ok exampleInfo),
         Event.listProfiles ⟨"b", "cert-b"⟩ (Except.ok ["other"])] :=
  ⟨(copyContainer_profile_mismatch (exampleEnv threeAddrs ["other"]) exampleGlobals exampleCmd
      "a:c1" "b:c2" false 0 0 ⟨"a", "cert-a"⟩ ⟨"b", "cert-b"⟩
      ⟨"x86_64", ∅, exampleConfig, ["default"]⟩
      ⟨1, [Event.containerInfo ⟨"a", "cert-a"⟩ "c1" (Except.ok exampleInfo)]⟩ ["other"] 2
      (by decide) rfl rfl (by decide) rfl rfl ⟨"default", by decide, by decide⟩).1,
   (copyContainer_profile_mismatch (exampleEnv threeAddrs ["other"]) exampleGlobals exampleCmd
      "a:c1" "b:c2" false 0 0 ⟨"a", "cert-a"⟩ ⟨"b", "cert-b"⟩
      ⟨"x86_64", ∅, exampleConfig, ["default"]⟩
      ⟨1, [Event.containerInfo ⟨"a", "cert-a"⟩ "c1" (Except.ok exampleInfo)]⟩ ["other"] 2
      (by decide) rfl rfl (by decide) rfl rfl ⟨"default", by decide, by decide⟩).2.1⟩

/-- C4: when source and destination resolve to the same remote and the source
name equals the destination name (which is the source name when the
destination resource names a remote only), `copyContainer` returns an error and
the log holds at most one call, a `ContainerInfo` or `SnapshotInfo` call; when
that metadata fetch succeeds the error is that of line 132. -/
theorem copyContainer_same_name {σ : Type} (env : Env σ) (g : Globals) (c : CopyCmd)
    (sourceResource destResource : String) (keepVolatile : Bool) (ephemeral : Int) (w : σ)
    (hrem : (env.parseRemoteAndContainer sourceResource).1
      = (env.parseRemoteAndContainer destResource).1)
    (hsame : (env.parseRemoteAndContainer sourceResource).2
      = destNameOf env sourceResource destResource) :
    (∃ e, (copyContainer env g c sourceResource destResource keepVolatile ephemeral w).1
      = some e) ∧
    (copyContainer env g c sourceResource destResource keepVolatile ephemeral w).2.calls.length
      ≤ 1 ∧
    (∀ ev ∈ (copyContainer env g c sourceResource destResource keepVolatile
      ephemeral w).2.calls, ev.isMetadataFetch = true) ∧
    (∀ source status s0, (env.parseRemoteAndContainer sourceResource).2 ≠ "" →
      env.newClient (env.parseRemoteAndContainer sourceResource).1 = Except.ok source →
      fetchStatus env source (env.parseRemoteAndContainer sourceResource).2 ⟨w, []⟩
        = (Except.ok status, s0) →
      (copyContainer env g c sourceResource destResource keepVolatile ephemeral w).1
        = some errSameName) := by
  have hrun : ∀ source status s0, (env.parseRemoteAndContainer sourceResource).2 ≠ "" →
      env.newClient (env.parseRemoteAndContainer sourceResource).1 = Except.ok source →
      fetchStatus env source (env.parseRemoteAndContainer sourceResource).2 ⟨w, []⟩
        = (Except.ok status, s0) →
      copyContainer env g c sourceResource destResource keepVolatile ephemeral w
        = (some errSameName, s0) := by
    intro source status s0 hname hsrc hfetch
    unfold copyContainer copySetup
    rw [if_neg hname, hsrc]
    simp only [hfetch]
    rw [if_pos hrem]
    unfold localCopyPath
    rw [if_pos hsame]
  by_cases hname : (env.parseRemoteAndContainer sourceResource).2 = ""
  · have h0 : copyContainer env g c sourceResource destResource keepVolatile ephemeral w
        = (some errNoSourceName, ⟨w, []⟩) := by
      unfold copyContainer copySetup
      rw [if_pos hname]
    refine ⟨⟨_, by rw [h0]⟩, by rw [h0]; simp, by rw [h0]; simp, ?_⟩
    intro _ _ _ hn
    exact absurd hname hn
  · cases hsrc : env.newClient (env.parseRemoteAndContainer sourceResource).1 with
    | error e =>
      have h0 : copyContainer env g c sourceResource destResource keepVolatile ephemeral w
          = (some e, ⟨w, []⟩) := by
        unfold copyContainer copySetup
        rw [if_neg hname, hsrc]
      refine ⟨⟨_, by rw [h0]⟩, by rw [h0]; simp, by rw [h0]; simp, ?_⟩
      intro _ _ _ _ hs
      simp at hs
    | ok source =>
      obtain ⟨ev, hev, hcalls⟩ := fetchStatus_calls env source
        (env.parseRemoteAndContainer sourceResource).2 ⟨w, []⟩
      cases hfetch : fetchStatus env source (env.parseRemoteAndContainer sourceResource).2
          ⟨w, []⟩ with
      | mk res s0 =>
        rw [hfetch] at hcalls
        simp only [List.nil_append] at hcalls
        cases res with
        | error e =>
          have h0 : copyContainer env g c sourceResource destResource keepVolatile ephemeral w
              = (some e, s0) := by
            unfold copyContainer copySetup
            rw [if_neg hname, hsrc]
            simp only [hfetch]
          refine ⟨⟨_, by rw [h0]⟩, by rw [h0, hcalls]; simp, ?_, ?_⟩
          · rw [h0, hcalls]
            intro e2 he2
            rw [List.mem_singleton] at he2
            rw [he2]; exact hev
          · intro source2 status2 s02 _ hs hf
            cases hs
            have h2 := hf.symm.trans hfetch
            simp at h2
        | ok status =>
          have h0 := hrun source status s0 hname hsrc hfetch
          refine ⟨⟨_, by rw [h0]⟩, by rw [h0, hcalls]; simp, ?_, ?_⟩
          · rw [h0, hcalls]
            intro e2 he2
            rw [List.mem_singleton] at he2
            rw [he2]; exact hev
          · intro _ _ _ _ _ _
            rw [h0]

/-- C4, witness: `lxc copy a:c1 a:`, where the destination names a remote only. -/
theorem copyContainer_same_name_witness :
    destNameOf (exampleEnv threeAddrs ["default"]) "a:c1" "a:" = "c1" ∧
    (copyContainer (exampleEnv threeAddrs ["default"]) exampleGlobals exampleCmd
      "a:c1" "a:" false 0 0).2.calls.length ≤ 1 ∧
    ∃ e, (copyContainer (exampleEnv threeAddrs ["default"]) exampleGlobals exampleCmd
      "a:c1" "a:" false 0 0).1 = some e :=
  ⟨by decide,
   (copyContainer_same_name (exampleEnv threeAddrs ["default"]) exampleGlobals exampleCmd
      "a:c1" "a:" false 0 0 (by decide) (by decide)).2.1,
   (copyContainer_same_name (exampleEnv threeAddrs ["default"]) exampleGlobals exampleCmd
      "a:c1" "a:" false 0 0 (by decide) (by decide)).1⟩

/-- C5: `lxc copy a:c1 a:c2` with `ephemeral` unspecified (-1), in a world where
the source container is ephemeral: the run succeeds, the log is the metadata
fetch (whose reply says the source is ephemeral), the `LocalCopy` request and
the wait, and the `LocalCopy` request carries `ephemeral = false`.  The source
is not asked again for its ephemeral attribute. -/
theorem copyContainer_local_unspecified_ephemeral :
    exampleInfo.ephemeral = true ∧
    (copyContainer (exampleEnv threeAddrs ["default"]) exampleGlobals exampleCmd
      "a:c1" "a:c2" false (-1) 0).1 = none ∧
    (copyContainer (exampleEnv threeAddrs ["default"]) exampleGlobals exampleCmd
      "a:c1" "a:c2" false (-1) 0).2.calls
      = [Event.containerInfo ⟨"a", "cert-a"⟩ "c1" (Except.ok exampleInfo),
         Event.localCopy ⟨"a", "cert-a"⟩ "c1" "c2" (stripVolatile exampleConfig false)
           ["default"] false (Except.ok ⟨"/1.0/operations/copy", Except.ok exampleOperation⟩),
         Event.waitForSuccess ⟨"a", "cert-a"⟩ "/1.0/operations/copy" none] ∧
    (copyContainer (exampleEnv threeAddrs ["default"]) exampleGlobals exampleCmd
      "a:c1" "a:c2" false (-1) 0).2.calls.map Event.localCopyEphemeral
      = [none, some false, none] :=
  ⟨rfl, rfl, rfl, rfl⟩

/-- C6: in a cross-remote invocation that reaches the address loop, with
`ephemeral` unspecified (-1) the third call of the run is the second
`ContainerInfo` request on the source, and every `MigrateFrom` request carries
the `Ephemeral` attribute of its reply; with `ephemeral` 0 or 1 the metadata
fetch is the only `ContainerInfo` or `SnapshotInfo` call of the run and every
`MigrateFrom` request carries `ephemeral == 1`. -/
theorem copyContainer_migrate_ephemeral {σ : Type} (env : Env σ) (g : Globals) (c : CopyCmd)
    (sourceResource destResource : String) (keepVolatile : Bool) (ephemeral : Int) (w : σ)
    (ctx : LoopCtx) (s1 : St σ)
    (hreach : copySetup env g c sourceResource destResource keepVolatile ephemeral w
      = (Setup.atLoop ctx, s1)) :
    (ephemeral = -1 → ∃ ct : ContainerInfo,
      (copyContainer env g c sourceResource destResource keepVolatile ephemeral w).2.calls[2]?
        = some (Event.containerInfo ctx.source (env.parseRemoteAndContainer sourceResource).2
            (Except.ok ct)) ∧
      ∀ e ∈ (copyContainer env g c sourceResource destResource keepVolatile
        ephemeral w).2.calls, ∀ b, e.migrateEphemeral = some b → b = ct.ephemeral) ∧
    ((ephemeral = 0 ∨ ephemeral = 1) →
      ((copyContainer env g c sourceResource destResource keepVolatile ephemeral w).2.calls.filter
        Event.isMetadataFetch).length = 1 ∧
      ∀ e ∈ (copyContainer env g c sourceResource destResource keepVolatile
        ephemeral w).2.calls, ∀ b, e.migrateEphemeral = some b → b = (ephemeral == 1)) := by
  obtain ⟨source, status, s0, ev, _, _, _, hs0, hev, _, hm⟩ := copySetup_atLoop hreach
  obtain ⟨dest, dp, requery, ws, sa, wd, da, _, hcalls, heph, hs, _, _, _, _, _, _, _, _⟩ :=
    migrationSetup_atLoop hm
  have hrun : copyContainer env g c sourceResource destResource keepVolatile ephemeral w
      = addressLoop env ctx ctx.sourceAddresses none s1 := by
    unfold copyContainer
    rw [hreach]
  obtain ⟨new, hnew, hP⟩ := addressLoop_append env ctx
    (fun e => e.isMetadataFetch = false ∧ ∀ b, e.migrateEphemeral = some b → b = (ctx.ephemeral == 1))
    (by
      intro a r
      refine ⟨rfl, ?_⟩
      intro b hb
      simp only [Event.migrateEphemeral, migrateArgs, Option.some.injEq] at hb
      exact hb.symm)
    (by
      intro op r
      exact ⟨rfl, by simp [Event.migrateEphemeral]⟩)
    ctx.sourceAddresses none s1
  rw [← hrun] at hnew
  have hsetup : ∀ e ∈ s1.calls, ∀ b, e.migrateEphemeral = some b → False := by
    intro e he b hb
    have := (copySetup_atLoop_mem hreach e he).2
    cases e <;> simp_all [Event.isMigrateFrom, Event.migrateEphemeral]
  constructor
  · intro hminus
    rcases heph with ⟨_, ct, hreq, hce⟩ | ⟨hne, _, _⟩
    · refine ⟨ct, ?_, ?_⟩
      · rw [hnew, hcalls, hs0, hreq, hs]
        simp
      · intro e he b hb
        rw [hnew, List.mem_append] at he
        rcases he with he | he
        · exact (hsetup e he b hb).elim
        · rw [(hP e he).2 b hb, hce]
          cases ct.ephemeral <;> simp
    · exact absurd hminus hne
  · intro h01
    rcases heph with ⟨hminus, _⟩ | ⟨_, hreq, hce⟩
    · rcases h01 with h | h <;> rw [h] at hminus <;> simp at hminus
    · constructor
      · have hnil : new.filter Event.isMetadataFetch = [] := by
          rw [List.filter_eq_nil_iff]
          intro e he
          simp [(hP e he).1]
        rw [hnew, hcalls, hs0, hreq, List.filter_append, hnil]
        simp only [List.cons_append, List.nil_append, List.append_nil, List.filter_cons, hev,
          if_true]
        simp [Event.isMetadataFetch]
      · intro e he b hb
        rw [hnew, List.mem_append] at he
        rcases he with he | he
        · exact (hsetup e he b hb).elim
        · rw [(hP e he).2 b hb, hce]

/-- C6, witness: `ephemeral` unspecified and an ephemeral source. -/
theorem copyContainer_migrate_ephemeral_witness :
    ∃ ct : ContainerInfo,
      (copyContainer (exampleEnv threeAddrs ["default"]) exampleGlobals exampleCmd
        "a:c1" "b:c2" false (-1) 0).2.calls[2]?
        = some (Event.containerInfo (exampleCtx threeAddrs 1).source
            ((exampleEnv threeAddrs ["default"]).parseRemoteAndContainer "a:c1").2
            (Except.ok ct)) ∧
      ∀ e ∈ (copyContainer (exampleEnv threeAddrs ["default"]) exampleGlobals exampleCmd
        "a:c1" "b:c2" false (-1) 0).2.calls, ∀ b, e.migrateEphemeral = some b →
          b = ct.ephemeral :=
  (copyContainer_migrate_ephemeral (exampleEnv threeAddrs ["default"]) exampleGlobals
    exampleCmd "a:c1" "b:c2" false (-1) 0 (exampleCtx threeAddrs 1)
    (copySetup (exampleEnv threeAddrs ["default"]) exampleGlobals exampleCmd
      "a:c1" "b:c2" false (-1) 0).2 (by rfl)).1 (by rfl)

/-- C7: in a run whose metadata fetch returned the config `status.config`, every
`LocalCopy` and `MigrateFrom` request carries, when `keepVolatile` is true, the
reconciled config itself, and when `keepVolatile` is false a config in which
every key of the volatile namespace is absent and every other key has the
value it has in the reconciled config (so is absent exactly when it is absent
there).  The volatile namespace is that of line 123: the keys that start with
`volatile`. -/
theorem copyContainer_transferred_config {σ : Type} (env : Env σ) (g : Globals) (c : CopyCmd)
    (sourceResource destResource : String) (keepVolatile : Bool) (ephemeral : Int) (w : σ)
    (source : Client) (status : Status) (s0 : St σ)
    (hname : (env.parseRemoteAndContainer sourceResource).2 ≠ "")
    (hsrc : env.newClient (env.parseRemoteAndContainer sourceResource).1 = Except.ok source)
    (hfetch : fetchStatus env source (env.parseRemoteAndContainer sourceResource).2 ⟨w, []⟩
      = (Except.ok status, s0)) :
    ∀ e ∈ (copyContainer env g c sourceResource destResource keepVolatile ephemeral w).2.calls,
      ∀ cfg, e.carriedConfig = some cfg →
        (keepVolatile = true → cfg = applyOverrides status.config g.configMap) ∧
        (keepVolatile = false → ∀ k, cfg.lookup k
          = if stringsHasPrefix k "volatile" = true then none
            else (applyOverrides status.config g.configMap).lookup k) := by
  intro e he cfg hcfg
  have hcar := copyContainer_carries env g c sourceResource destResource keepVolatile
    ephemeral w source status s0 hname hsrc hfetch e he
  have hc : cfg = stripVolatile (applyOverrides status.config g.configMap) keepVolatile := by
    cases e <;> simp_all [Event.carriedConfig, Event.Carries, reconcile]
  constructor
  · intro hk
    rw [hc, hk]
    simp [stripVolatile]
  · intro hk k
    rw [hc, hk]
    exact stripVolatile_lookup _ k

/-- C7, witness: `lxc copy a:c1 a:c2`; the `LocalCopy` request has lost the key
`volatile.base_image`. -/
theorem copyContainer_transferred_config_witness :
    (stripVolatile exampleConfig false).lookup "volatile.base_image"
      = if stringsHasPrefix "volatile.base_image" "volatile" = true then none
        else (applyOverrides exampleConfig exampleGlobals.configMap).lookup
          "volatile.base_image" :=
  (copyContainer_transferred_config (exampleEnv threeAddrs ["default"]) exampleGlobals
    exampleCmd "a:c1" "a:c2" false 0 0 ⟨"a", "cert-a"⟩
    ⟨"x86_64", ∅, exampleConfig, ["default"]⟩
    ⟨1, [Event.containerInfo ⟨"a", "cert-a"⟩ "c1" (Except.ok exampleInfo)]⟩
    (by decide) rfl rfl
    (Event.localCopy ⟨"a", "cert-a"⟩ "c1" "c2" (stripVolatile exampleConfig false)
      ["default"] false (Except.ok ⟨"/1.0/operations/copy", Except.ok exampleOperation⟩))
    (List.getElem?_mem (by rfl : (copyContainer (exampleEnv threeAddrs ["default"])
      exampleGlobals exampleCmd "a:c1" "a:c2" false 0 0).2.calls[1]? = some _))
    (stripVolatile exampleConfig false) rfl).2 rfl "volatile.base_image"

/-- C8: in a run whose metadata fetch returned the config `status.config`, for
both values of `keepVolatile`, every `MigrateFrom` request carries as base
image the value of the key `volatile.base_image` in the reconciled config, as
it stands before the volatile keys are stripped, and the empty string when the
key is absent; when `keepVolatile` is false the config of the same request no
longer has that key. -/
theorem copyContainer_base_image {σ : Type} (env : Env σ) (g : Globals) (c : CopyCmd)
    (sourceResource destResource : String) (keepVolatile : Bool) (ephemeral : Int) (w : σ)
    (source : Client) (status : Status) (s0 : St σ)
    (hname : (env.parseRemoteAndContainer sourceResource).2 ≠ "")
    (hsrc : env.newClient (env.parseRemoteAndContainer sourceResource).1 = Except.ok source)
    (hfetch : fetchStatus env source (env.parseRemoteAndContainer sourceResource).2 ⟨w, []⟩
      = (Except.ok status, s0)) :
    ∀ e ∈ (copyContainer env g c sourceResource destResource keepVolatile ephemeral w).2.calls,
      ∀ b, e.migrateBaseImage = some b →
        b = ((applyOverrides status.config g.configMap).lookup "volatile.base_image").getD "" ∧
        (keepVolatile = false →
          ∀ cfg, e.carriedConfig = some cfg → cfg.lookup "volatile.base_image" = none) := by
  intro e he b hb
  have hcar := copyContainer_carries env g c sourceResource destResource keepVolatile
    ephemeral w source status s0 hname hsrc hfetch e he
  constructor
  · cases e <;> simp_all [Event.migrateBaseImage, Event.Carries, reconcile, StrMap.index]
  · intro hk cfg hcfg
    have hc : cfg = stripVolatile (applyOverrides status.config g.configMap) keepVolatile := by
      cases e <;> simp_all [Event.carriedConfig, Event.Carries, reconcile]
    rw [hc, hk, stripVolatile_lookup]
    have hp : stringsHasPrefix "volatile.base_image" "volatile" = true := by decide
    rw [if_pos hp]

/-- C8, witness: `lxc copy a:c1 b:c2` towards the accepted address; the request
carries the base image `abc`. -/
theorem copyContainer_base_image_witness :
    "abc" = ((applyOverrides exampleConfig exampleGlobals.configMap).lookup
      "volatile.base_image").getD "" :=
  (copyContainer_base_image (exampleEnv ["10.0.0.3:8443"] ["default"]) exampleGlobals
    exampleCmd "a:c1" "b:c2" false 0 0 ⟨"a", "cert-a"⟩
    ⟨"x86_64", ∅, exampleConfig, ["default"]⟩
    ⟨1, [Event.containerInfo ⟨"a", "cert-a"⟩ "c1" (Except.ok exampleInfo)]⟩
    (by decide) rfl rfl
    (Event.migrateFrom ⟨"b", "cert-b"⟩ (migrateArgs (exampleCtx ["10.0.0.3:8443"] 0)
      "10.0.0.3:8443") (Except.ok ⟨"/1.0/operations/migrate", Except.ok exampleOperation⟩))
    (List.getElem?_mem (by rfl : (copyContainer (exampleEnv ["10.0.0.3:8443"] ["default"])
      exampleGlobals exampleCmd "a:c1" "b:c2" false 0 0).2.calls[6]? = some _))
    "abc" rfl).1

/-- C9: the reconciled config, before the volatile keys are dealt with, maps a
key of the override map to the value given there and any other key to what the
fetched config maps it to; its keys are those of the two maps; it is what is
transferred when `keepVolatile` is true.  The reconciled profile list is the
list of the source followed by the caller's profiles, in the order given. -/
theorem reconcile_overrides_and_profiles (c : CopyCmd) (g : Globals) (keepVolatile : Bool)
    (status : Status) (k : String) :
    (applyOverrides status.config g.configMap).lookup k
      = (match g.configMap with
         | some o =>
           (match o.lookup k with
            | some v => some v
            | none => status.config.lookup k)
         | none => status.config.lookup k) ∧
    (k ∈ applyOverrides status.config g.configMap
      ↔ (∃ o, g.configMap = some o ∧ k ∈ o) ∨ k ∈ status.config) ∧
    (reconcile c g true status).status.config = applyOverrides status.config g.configMap ∧
    (reconcile c g keepVolatile status).status.profiles
      = status.profiles ++ c.profArgs.getD [] := by
  have hlook : (applyOverrides status.config g.configMap).lookup k
      = (match g.configMap with
         | some o =>
           (match o.lookup k with
            | some v => some v
            | none => status.config.lookup k)
         | none => status.config.lookup k) := by
    cases hcm : g.configMap with
    | none => simp [applyOverrides]
    | some o => exact applyOverrides_lookup status.config o k
  refine ⟨hlook, ?_, ?_, ?_⟩
  · rw [← AList.lookup_isSome, hlook]
    cases hcm : g.configMap with
    | none => simp [AList.lookup_isSome]
    | some o =>
      cases ho : o.lookup k with
      | none =>
        have hn : k ∉ o := AList.lookup_eq_none.mp ho
        simp [ho, AList.lookup_isSome, hn]
      | some v =>
        have hm : k ∈ o := by
          rw [← AList.lookup_isSome, ho]
          rfl
        simp [ho, hm]
  · simp [reconcile, stripVolatile]
  · cases hp : c.profArgs with
    | none => simp [reconcile, appendProfiles, hp]
    | some ps => simp [reconcile, appendProfiles, hp]

end Lxc
